import Mathlib

/-!
Verification of the bounding-box utilities in `facemesh/src/box.ts`.

Tensors of shape `[1, n]` are embedded as lists of rationals, a rank-4
image tensor `[batch, height, width, channels]` as a nested list, and the
numeric behaviour of the backend (elementwise arithmetic, slicing,
concatenation, division) as exact rational arithmetic.
-/

namespace FacemeshBox

/-- A rank-4 tensor `[batch, height, width, channels]` as nested lists. -/
abbrev T4 := List (List (List (List ℚ)))

/-- `tf.slice(t, [0, start], [-1, len])` on a `[1, n]` tensor: `len` columns
starting at column `start`. -/
def sliceCols (t : List ℚ) (start len : Nat) : List ℚ :=
  (t.drop start).take len

/-- The facial bounding box (`Box` in the source): `[1,2]` corner tensors, a
`[1,4]` concatenation of them, and an optional untyped landmarks payload. -/
structure Box where
  startPoint : List ℚ
  endPoint : List ℚ
  startEndTensor : List ℚ
  landmarks : Option (List (ℚ × ℚ)) := none
deriving DecidableEq, Repr

/-- `cpuBox` in the source: corner coordinates already synchronized to host
memory as plain pairs. -/
structure cpuBox where
  startPoint : ℚ × ℚ
  endPoint : ℚ × ℚ
  landmarks : Option (List (ℚ × ℚ)) := none
deriving DecidableEq, Repr

/-- `createBox`: keep supplied start and end points as-is, otherwise derive
them by slicing the combined buffer into columns 0-1 and 2-3. -/
def createBox (startEndTensor : List ℚ) (startPoint endPoint : Option (List ℚ)) :
    Box where
  startEndTensor := startEndTensor
  startPoint := startPoint.getD (sliceCols startEndTensor 0 2)
  endPoint := endPoint.getD (sliceCols startEndTensor 2 2)
  landmarks := none

/-- `scaleBoxCoordinates`: elementwise-multiply both corner points by the
per-axis factor, then rebuild through `createBox` from the concatenation
alone (so the corner fields are re-derived from the combined buffer). -/
def scaleBoxCoordinates (box : Box) (factor : ℚ × ℚ) : Box :=
  let newStart := List.zipWith (· * ·) box.startPoint [factor.1, factor.2]
  let newEnd := List.zipWith (· * ·) box.endPoint [factor.1, factor.2]
  createBox (newStart ++ newEnd) none none

/-- `getBoxSize`: per-axis absolute difference of the corners. -/
def getBoxSize (box : cpuBox) : ℚ × ℚ :=
  (|box.endPoint.1 - box.startPoint.1|, |box.endPoint.2 - box.startPoint.2|)

/-- `getBoxCenter`: per-axis `start + (end - start) / 2`. -/
def getBoxCenter (box : cpuBox) : ℚ × ℚ :=
  (box.startPoint.1 + (box.endPoint.1 - box.startPoint.1) / 2,
   box.startPoint.2 + (box.endPoint.2 - box.startPoint.2) / 2)

/-- `dataSync` of the two `[1,2]` corner tensors into a `cpuBox`, as done at
the top of `enlargeBox`. -/
def boxToCpu (box : Box) : cpuBox where
  startPoint := (box.startPoint.getD 0 0, box.startPoint.getD 1 0)
  endPoint := (box.endPoint.getD 0 0, box.endPoint.getD 1 0)
  landmarks := none

/-- `enlargeBox`: read the corners to host memory, take center and size,
set `newSize = (size / 2) * factor`, and build the box with corners
`center - newSize` and `center + newSize`, passed to `createBox`
explicitly together with their concatenation. -/
def enlargeBox (box : Box) (factor : ℚ) : Box :=
  let boxCPU := boxToCpu box
  let center := getBoxCenter boxCPU
  let size := getBoxSize boxCPU
  let newSize : ℚ × ℚ := (size.1 / 2 * factor, size.2 / 2 * factor)
  let newStart : List ℚ := [center.1 - newSize.1, center.2 - newSize.2]
  let newEnd : List ℚ := [center.1 + newSize.1, center.2 + newSize.2]
  createBox (newStart ++ newEnd) (some newStart) (some newEnd)

/-- Height of the image: `image.shape[1]`. -/
def dim1 (image : T4) : Nat := (image.getD 0 []).length

/-- Width of the image: `image.shape[2]`. -/
def dim2 (image : T4) : Nat := ((image.getD 0 []).getD 0 []).length

/-- Channel count of the image: `image.shape[3]`. -/
def dim3 (image : T4) : Nat := (((image.getD 0 []).getD 0 []).getD 0 []).length

/-- Pixel read with default 0 outside the stored data. -/
def getPix (image : T4) (b y x c : Nat) : ℚ :=
  (((image.getD b []).getD y []).getD x []).getD c 0

/-- Modelled from the spec: one sample of the external
image-region-extraction-and-resize primitive (`tf.image.cropAndResize`,
which is library code outside this repository). The normalized rectangle
`[y1, x1, y2, x2]` is mapped onto source coordinates, sampled bilinearly,
with extrapolation value 0 outside the source extent. -/
def cropSample (image : T4) (b : Nat) (coords : List ℚ) (cropH cropW y x ch : Nat) : ℚ :=
  let H := dim1 image
  let W := dim2 image
  let y1 := coords.getD 0 0
  let x1 := coords.getD 1 0
  let y2 := coords.getD 2 0
  let x2 := coords.getD 3 0
  let inY : ℚ :=
    if 1 < cropH then y1 * (H - 1) + y * ((y2 - y1) * (H - 1) / (cropH - 1))
    else (y1 + y2) / 2 * (H - 1)
  let inX : ℚ :=
    if 1 < cropW then x1 * (W - 1) + x * ((x2 - x1) * (W - 1) / (cropW - 1))
    else (x1 + x2) / 2 * (W - 1)
  if inY < 0 ∨ (H : ℚ) - 1 < inY ∨ inX < 0 ∨ (W : ℚ) - 1 < inX then 0
  else
    let topY := (Int.floor inY).toNat
    let botY := (Int.ceil inY).toNat
    let leftX := (Int.floor inX).toNat
    let rightX := (Int.ceil inX).toNat
    let yLerp : ℚ := inY - Int.floor inY
    let xLerp : ℚ := inX - Int.floor inX
    let tl := getPix image b topY leftX ch
    let tr := getPix image b topY rightX ch
    let bl := getPix image b botY leftX ch
    let br := getPix image b botY rightX ch
    let top := tl + (tr - tl) * xLerp
    let bot := bl + (br - bl) * xLerp
    top + (bot - top) * yLerp

/-- Modelled from the spec: the external image-region-extraction-and-resize
primitive (`tf.image.cropAndResize` of the numeric backend, which is not
part of this repository). For each requested box index it produces a
`[cropH, cropW, channels]` grid of samples of the source image inside the
normalized rectangle, resized to the requested crop size. -/
def cropAndResize (image : T4) (coords : List ℚ) (boxInd : List Nat)
    (cropSize : Nat × Nat) : T4 :=
  boxInd.map fun b =>
    (List.range cropSize.1).map fun y =>
      (List.range cropSize.2).map fun x =>
        (List.range (dim3 image)).map fun ch =>
          cropSample image b coords cropSize.1 cropSize.2 y x ch

/-- The coordinates handed to the resampling primitive by
`cutBoxFromImageAndResize`: columns `1, 0, 3, 2` of the stored `[1,4]`
buffer (concatenated along axis 0 and transposed back to `[1,4]`), divided
elementwise by `[height, width, height, width]`. -/
def roundedCoords (box : Box) (image : T4) : List ℚ :=
  let height : ℚ := dim1 image
  let width : ℚ := dim2 image
  let xyxy := box.startEndTensor
  let yxyx :=
    sliceCols xyxy 1 1 ++ sliceCols xyxy 0 1 ++ sliceCols xyxy 3 1 ++ sliceCols xyxy 2 1
  List.zipWith (· / ·) yxyx [height, width, height, width]

/-- `cutBoxFromImageAndResize`: reorder and normalize the stored corner
coordinates, then invoke the resampling primitive with box index 0. -/
def cutBoxFromImageAndResize (box : Box) (image : T4) (cropSize : Nat × Nat) : T4 :=
  cropAndResize image (roundedCoords box image) [0] cropSize

/-- Shape predicate for rank-4 nested lists. -/
abbrev shape4 (t : T4) (b h w c : Nat) : Prop :=
  t.length = b ∧ ∀ p ∈ t, p.length = h ∧ ∀ r ∈ p, r.length = w ∧ ∀ q ∈ r, q.length = c

/-! ### Disposal model

At runtime a `Box` reference and each of its tensor fields may be null or
undefined, which the guard in `disposeBox` partially anticipates. Tensors
are identified here by the id of their backing buffer; a call to `dispose`
on a missing tensor is a thrown type error, embedded as `Except.error`. -/

/-- A `Box` as `disposeBox` can actually receive it: each tensor field is a
buffer reference that may be absent. -/
structure TBox where
  startPoint : Option Nat
  endPoint : Option Nat
  startEndTensor : Option Nat
deriving DecidableEq, Repr

/-- Releasing one tensor reference: reading a method off a missing value
throws. -/
def disposeRef (t : Option Nat) : Except Unit Nat :=
  match t with
  | none => Except.error ()
  | some id => Except.ok id

/-- `disposeBox`: when the box and its `startPoint` are present, dispose
`startEndTensor`, `startPoint` and `endPoint` in that order; otherwise do
nothing. Returns the ids released, or an error when a dispose throws. -/
def disposeBox (box : Option TBox) : Except Unit (List Nat) :=
  match box with
  | none => Except.ok []
  | some b =>
    match b.startPoint with
    | none => Except.ok []
    | some sp => do
      let se ← disposeRef b.startEndTensor
      let ep ← disposeRef b.endPoint
      Except.ok [se, sp, ep]

/-! ### Allocation model

For the frame/freshness properties the backend is modelled as a heap of
numbered buffers: every tensor operation allocates its result at the next
free id, `dispose` removes an id, and `tf.tidy` removes every id allocated
during its body that is not reachable from the returned box. -/

/-- The backend heap: the next fresh buffer id and the stored buffers. -/
structure Heap where
  next : Nat
  mem : Nat → Option (List ℚ)

/-- Allocate a fresh buffer holding `d`. -/
def halloc (d : List ℚ) (h : Heap) : Nat × Heap :=
  (h.next, { next := h.next + 1, mem := fun i => if i = h.next then some d else h.mem i })

/-- Read a buffer (`dataSync` or a kernel reading its input). -/
def hread (id : Nat) (h : Heap) : List ℚ :=
  (h.mem id).getD []

/-- `tf.tidy` cleanup: drop every buffer allocated inside the body (id in
`[n0, h.next)`) that is not kept through the returned value. -/
def tidyDispose (n0 : Nat) (keep : List Nat) (h : Heap) : Heap where
  next := h.next
  mem := fun i => if n0 ≤ i ∧ i < h.next ∧ i ∉ keep then none else h.mem i

/-- A `Box` whose tensor fields are heap references. -/
structure HBox where
  startPoint : Nat
  endPoint : Nat
  startEndTensor : Nat
  landmarks : Option (List (ℚ × ℚ)) := none
deriving DecidableEq, Repr

/-- `createBox` against the heap: supplied corner references are used
as-is; a missing corner is allocated by slicing the combined buffer. -/
def createBoxH (se : Nat) (sp ep : Option Nat) (h : Heap) : HBox × Heap :=
  let (spId, h1) :=
    match sp with
    | some s => (s, h)
    | none => halloc (sliceCols (hread se h) 0 2) h
  let (epId, h2) :=
    match ep with
    | some e => (e, h1)
    | none => halloc (sliceCols (hread se h1) 2 2) h1
  (⟨spId, epId, se, none⟩, h2)

/-- `scaleBoxCoordinates` against the heap: `tf.mul` twice, `tf.concat2d`,
then `createBox` from the concatenation alone (which allocates the two
derived slices). Nothing is disposed. -/
def scaleBoxCoordinatesH (box : HBox) (factor : ℚ × ℚ) (h : Heap) : HBox × Heap :=
  let (nsId, h1) := halloc (List.zipWith (· * ·) (hread box.startPoint h) [factor.1, factor.2]) h
  let (neId, h2) := halloc (List.zipWith (· * ·) (hread box.endPoint h1) [factor.1, factor.2]) h1
  let (seId, h3) := halloc (hread nsId h2 ++ hread neId h2) h2
  createBoxH seId none none h3

/-- `enlargeBox` against the heap, inside `tf.tidy`: `dataSync` the two
corners, allocate `size`, `size / 2`, `newSize`, `newStart`, `newEnd` and
the concatenation, build the box with explicit corners, then let the tidy
scope reclaim the intermediates not kept in the returned box. -/
def enlargeBoxH (box : HBox) (factor : ℚ) (h : Heap) : HBox × Heap :=
  let n0 := h.next
  let sp := hread box.startPoint h
  let ep := hread box.endPoint h
  let boxCPU : cpuBox := ⟨(sp.getD 0 0, sp.getD 1 0), (ep.getD 0 0, ep.getD 1 0), none⟩
  let center := getBoxCenter boxCPU
  let size := getBoxSize boxCPU
  let (_, h1) := halloc [size.1, size.2] h
  let (_, h2) := halloc [size.1 / 2, size.2 / 2] h1
  let (_, h3) := halloc [size.1 / 2 * factor, size.2 / 2 * factor] h2
  let newStart : List ℚ := [center.1 - size.1 / 2 * factor, center.2 - size.2 / 2 * factor]
  let newEnd : List ℚ := [center.1 + size.1 / 2 * factor, center.2 + size.2 / 2 * factor]
  let (nsId, h4) := halloc newStart h3
  let (neId, h5) := halloc newEnd h4
  let (seId, h6) := halloc (hread nsId h5 ++ hread neId h5) h5
  let (rbox, h7) := createBoxH seId (some nsId) (some neId) h6
  (rbox, tidyDispose n0 [rbox.startEndTensor, rbox.startPoint, rbox.endPoint] h7)

/-! ### Theorems -/

/-- C4: for every combined 4-coordinate buffer, concatenating the
`startPoint` and `endPoint` derived by `createBox` from that buffer alone
reproduces the combined buffer exactly. -/
theorem createBox_roundtrip (se : List ℚ) (h : se.length = 4) :
    (createBox se none none).startPoint ++ (createBox se none none).endPoint = se := by
  match se, h with
  | [a, b, c, d], _ => rfl

theorem createBox_roundtrip_witness :
    List.length [(0 : ℚ), 0, 10, 10] = 4 ∧
      (createBox [(0 : ℚ), 0, 10, 10] none none).startPoint ++
        (createBox [(0 : ℚ), 0, 10, 10] none none).endPoint = [0, 0, 10, 10] :=
  ⟨rfl, createBox_roundtrip [0, 0, 10, 10] rfl⟩

/-- C6: `createBox` uses explicitly supplied start and end points as-is,
and otherwise derives `startPoint` from columns 0-1 and `endPoint` from
columns 2-3 of the combined buffer; from `[0,0,10,10]` it derives
`startPoint = [0,0]` and `endPoint = [10,10]`. -/
theorem createBox_fields (se sp ep : List ℚ) (h : se.length = 4) :
    (createBox se (some sp) (some ep)).startPoint = sp ∧
    (createBox se (some sp) (some ep)).endPoint = ep ∧
    (createBox se none none).startPoint = se.take 2 ∧
    (createBox se none none).endPoint = se.drop 2 ∧
    (createBox [(0 : ℚ), 0, 10, 10] none none).startPoint = [0, 0] ∧
    (createBox [(0 : ℚ), 0, 10, 10] none none).endPoint = [10, 10] := by
  match se, h with
  | [a, b, c, d], _ => exact ⟨rfl, rfl, rfl, rfl, rfl, rfl⟩

theorem createBox_fields_witness :
    List.length [(0 : ℚ), 0, 10, 10] = 4 ∧
      (createBox [(0 : ℚ), 0, 10, 10] none none).endPoint = List.drop 2 [0, 0, 10, 10] :=
  ⟨rfl, (createBox_fields [0, 0, 10, 10] [1, 1] [2, 2] rfl).2.2.2.1⟩

/-- C7: `getBoxSize` returns the per-axis absolute difference of the two
corners, hence each component is non-negative; on `start = [10,20]`,
`end = [30,50]` it returns `[20,30]`. -/
theorem getBoxSize_abs (b : cpuBox) :
    getBoxSize b = (|b.endPoint.1 - b.startPoint.1|, |b.endPoint.2 - b.startPoint.2|) ∧
    0 ≤ (getBoxSize b).1 ∧ 0 ≤ (getBoxSize b).2 ∧
    getBoxSize ⟨(10, 20), (30, 50), none⟩ = (20, 30) := by
  refine ⟨rfl, abs_nonneg _, abs_nonneg _, ?_⟩
  simp only [getBoxSize]
  norm_num

/-- C5: `scaleBoxCoordinates` multiplies both corner points elementwise by
the per-axis factor and rebuilds the box through `createBox` from the
concatenation of the two scaled points alone, so the corner fields of the
result are re-derived from the combined buffer and equal the scaled
points. -/
theorem scaleBoxCoordinates_scales (box : Box) (f : ℚ × ℚ)
    (h1 : box.startPoint.length = 2) (h2 : box.endPoint.length = 2) :
    scaleBoxCoordinates box f =
      createBox (List.zipWith (· * ·) box.startPoint [f.1, f.2] ++
        List.zipWith (· * ·) box.endPoint [f.1, f.2]) none none ∧
    (scaleBoxCoordinates box f).startPoint = List.zipWith (· * ·) box.startPoint [f.1, f.2] ∧
    (scaleBoxCoordinates box f).endPoint = List.zipWith (· * ·) box.endPoint [f.1, f.2] := by
  have hs : (List.zipWith (· * ·) box.startPoint [f.1, f.2]).length = 2 := by
    simp [h1]
  have he : (List.zipWith (· * ·) box.endPoint [f.1, f.2]).length = 2 := by
    simp [h2]
  refine ⟨rfl, ?_, ?_⟩
  · show sliceCols (_ ++ _) 0 2 = _
    unfold sliceCols
    rw [List.drop_zero, ← hs, List.take_left]
  · show sliceCols (_ ++ _) 2 2 = _
    unfold sliceCols
    conv_lhs => rw [show 2 = (List.zipWith (· * ·) box.startPoint [f.1, f.2]).length from hs.symm]
    rw [List.drop_left, List.take_of_length_le (by rw [he, hs])]

theorem scaleBoxCoordinates_scales_witness :
    (createBox [(1 : ℚ), 2, 3, 4] none none).startPoint.length = 2 ∧
    (createBox [(1 : ℚ), 2, 3, 4] none none).endPoint.length = 2 ∧
    (scaleBoxCoordinates (createBox [(1 : ℚ), 2, 3, 4] none none) (2, 2)).startPoint = [2, 4] ∧
    (scaleBoxCoordinates (createBox [(1 : ℚ), 2, 3, 4] none none) (2, 2)).endPoint = [6, 8] := by
  have h := scaleBoxCoordinates_scales (createBox [(1 : ℚ), 2, 3, 4] none none) (2, 2) rfl rfl
  refine ⟨rfl, rfl, ?_, ?_⟩
  · rw [h.2.1]; norm_num [createBox, sliceCols]
  · rw [h.2.2]; norm_num [createBox, sliceCols]

/-- One coordinate axis of the enlargement arithmetic: moving half the
scaled size away from the center on each side keeps the center and scales
the absolute size by a non-negative factor. -/
lemma enlarge_axis (s e f : ℚ) (hf : 0 ≤ f) :
    (s + (e - s) / 2 - |e - s| / 2 * f) +
        ((s + (e - s) / 2 + |e - s| / 2 * f) - (s + (e - s) / 2 - |e - s| / 2 * f)) / 2 =
      s + (e - s) / 2 ∧
    |(s + (e - s) / 2 + |e - s| / 2 * f) - (s + (e - s) / 2 - |e - s| / 2 * f)| =
      f * |e - s| := by
  constructor
  · ring
  · have h2 : (s + (e - s) / 2 + |e - s| / 2 * f) - (s + (e - s) / 2 - |e - s| / 2 * f) =
        |e - s| * f := by ring
    rw [h2, abs_of_nonneg (mul_nonneg (abs_nonneg _) hf), mul_comm]

/-- C1 (amended): for every box and every non-negative factor, `enlargeBox`
keeps the center (per `getBoxCenter`) and multiplies the size (per
`getBoxSize`) by the factor, with corners
`center - size * factor / 2` and `center + size * factor / 2`.
For a negative factor the corners still follow these formulas but the
size, being an absolute difference, comes out as `|factor|` times the
input size rather than `factor` times it. -/
theorem enlargeBox_spec (box : Box) (factor : ℚ) (hf : 0 ≤ factor) :
    getBoxCenter (boxToCpu (enlargeBox box factor)) = getBoxCenter (boxToCpu box) ∧
    getBoxSize (boxToCpu (enlargeBox box factor)) =
      (factor * (getBoxSize (boxToCpu box)).1, factor * (getBoxSize (boxToCpu box)).2) ∧
    (enlargeBox box factor).startPoint =
      [(getBoxCenter (boxToCpu box)).1 - (getBoxSize (boxToCpu box)).1 * factor / 2,
       (getBoxCenter (boxToCpu box)).2 - (getBoxSize (boxToCpu box)).2 * factor / 2] ∧
    (enlargeBox box factor).endPoint =
      [(getBoxCenter (boxToCpu box)).1 + (getBoxSize (boxToCpu box)).1 * factor / 2,
       (getBoxCenter (boxToCpu box)).2 + (getBoxSize (boxToCpu box)).2 * factor / 2] := by
  obtain ⟨sp, ep, se, lm⟩ := box
  simp only [enlargeBox, createBox, boxToCpu, getBoxCenter, getBoxSize, Option.getD_some,
    List.getD_cons_zero, List.getD_cons_succ]
  generalize List.getD sp 0 0 = s1
  generalize List.getD sp 1 0 = s2
  generalize List.getD ep 0 0 = e1
  generalize List.getD ep 1 0 = e2
  have hx := enlarge_axis s1 e1 factor hf
  have hy := enlarge_axis s2 e2 factor hf
  refine ⟨Prod.ext hx.1 hy.1, Prod.ext hx.2 hy.2, ?_, ?_⟩ <;>
    simp only [List.cons.injEq, and_true] <;> constructor <;> ring

/-- C1 counterexample: on the box with corners `[0,0]` and `[2,2]` and
factor `-1`, the size of the enlarged box is `(2, 2)`, not
`factor * size = (-2, -2)`, so the claim fails for arbitrary factors. -/
theorem enlargeBox_negative_factor :
    getBoxSize (boxToCpu (enlargeBox (createBox [(0 : ℚ), 0, 2, 2] none none) (-1))) ≠
      ((-1) * (getBoxSize (boxToCpu (createBox [(0 : ℚ), 0, 2, 2] none none))).1,
       (-1) * (getBoxSize (boxToCpu (createBox [(0 : ℚ), 0, 2, 2] none none))).2) := by
  norm_num [enlargeBox, boxToCpu, createBox, sliceCols, getBoxSize, getBoxCenter]

theorem enlargeBox_spec_witness :
    (0 : ℚ) ≤ 2 ∧
    getBoxCenter (boxToCpu (enlargeBox (createBox [(10 : ℚ), 20, 30, 50] none none) 2)) =
      getBoxCenter (boxToCpu (createBox [(10 : ℚ), 20, 30, 50] none none)) ∧
    getBoxSize (boxToCpu (enlargeBox (createBox [(10 : ℚ), 20, 30, 50] none none) 2)) =
      (2 * (getBoxSize (boxToCpu (createBox [(10 : ℚ), 20, 30, 50] none none))).1,
       2 * (getBoxSize (boxToCpu (createBox [(10 : ℚ), 20, 30, 50] none none))).2) ∧
    (enlargeBox (createBox [(10 : ℚ), 20, 30, 50] none none) 2).startPoint = [0, 5] ∧
    (enlargeBox (createBox [(10 : ℚ), 20, 30, 50] none none) 2).endPoint = [40, 65] := by
  have h := enlargeBox_spec (createBox [(10 : ℚ), 20, 30, 50] none none) 2 (by norm_num)
  refine ⟨by norm_num, h.1, h.2.1, ?_, ?_⟩
  · norm_num [enlargeBox, boxToCpu, createBox, sliceCols, getBoxSize, getBoxCenter]
  · norm_num [enlargeBox, boxToCpu, createBox, sliceCols, getBoxSize, getBoxCenter]

/-- C2 (amended): `cutBoxFromImageAndResize` hands the resampling
primitive the stored `[x0, y0, x1, y1]` coordinates reordered to
`[y0, x0, y1, x1]` and divided elementwise by
`[height, width, height, width]`; each resulting normalized coordinate
lies in `[0, 1]` provided the image dimensions are positive and the box
coordinates lie within the image bounds (which the code does not
enforce). -/
theorem cutBox_normalizes (x0 y0 x1 y1 : ℚ) (box : Box) (image : T4) (cs : Nat × Nat)
    (hse : box.startEndTensor = [x0, y0, x1, y1]) :
    roundedCoords box image =
      [y0 / dim1 image, x0 / dim2 image, y1 / dim1 image, x1 / dim2 image] ∧
    cutBoxFromImageAndResize box image cs =
      cropAndResize image
        [y0 / dim1 image, x0 / dim2 image, y1 / dim1 image, x1 / dim2 image] [0] cs ∧
    (0 < dim1 image → 0 < dim2 image →
      0 ≤ y0 → y0 ≤ dim1 image → 0 ≤ x0 → x0 ≤ dim2 image →
      0 ≤ y1 → y1 ≤ dim1 image → 0 ≤ x1 → x1 ≤ dim2 image →
      ∀ c ∈ roundedCoords box image, 0 ≤ c ∧ c ≤ 1) := by
  have hco : roundedCoords box image =
      [y0 / dim1 image, x0 / dim2 image, y1 / dim1 image, x1 / dim2 image] := by
    simp [roundedCoords, sliceCols, hse]
  refine ⟨hco, ?_, ?_⟩
  · unfold cutBoxFromImageAndResize
    rw [hco]
  · intro hh hw hy0 hy0u hx0 hx0u hy1 hy1u hx1 hx1u c hc
    have hhq : (0 : ℚ) < dim1 image := by exact_mod_cast hh
    have hwq : (0 : ℚ) < dim2 image := by exact_mod_cast hw
    rw [hco] at hc
    simp only [List.mem_cons, List.not_mem_nil, or_false] at hc
    rcases hc with rfl | rfl | rfl | rfl
    · exact ⟨div_nonneg hy0 hhq.le, (div_le_one hhq).mpr hy0u⟩
    · exact ⟨div_nonneg hx0 hwq.le, (div_le_one hwq).mpr hx0u⟩
    · exact ⟨div_nonneg hy1 hhq.le, (div_le_one hhq).mpr hy1u⟩
    · exact ⟨div_nonneg hx1 hwq.le, (div_le_one hwq).mpr hx1u⟩

/-- C2 counterexample: a box extending left of the image
(`startEndTensor = [-5, 0, 10, 10]`) against a `[1,10,10,1]` image is
handed the coordinate `-5 / 10 = -1/2`, which does not lie in `[0, 1]`. -/
theorem cutBox_coord_outside :
    ¬ (∀ c ∈ roundedCoords (createBox [(-5 : ℚ), 0, 10, 10] none none)
          [List.replicate 10 (List.replicate 10 [(0 : ℚ)])], 0 ≤ c ∧ c ≤ 1) := by
  have hr : roundedCoords (createBox [(-5 : ℚ), 0, 10, 10] none none)
      [List.replicate 10 (List.replicate 10 [(0 : ℚ)])] = [0, -1/2, 1, 1] := by
    norm_num [roundedCoords, createBox, sliceCols, dim1, dim2]
  intro h
  have := (h (-1/2) (by rw [hr]; simp)).1
  linarith

theorem cutBox_normalizes_witness :
    (createBox [(2 : ℚ), 0, 10, 10] none none).startEndTensor = [2, 0, 10, 10] ∧
    roundedCoords (createBox [(2 : ℚ), 0, 10, 10] none none)
        [List.replicate 10 (List.replicate 10 [(0 : ℚ)])] =
      [0 / (10 : ℚ), 2 / (10 : ℚ), 10 / (10 : ℚ), 10 / (10 : ℚ)] := by
  have hd1 : dim1 [List.replicate 10 (List.replicate 10 [(0 : ℚ)])] = 10 := by
    simp [dim1]
  have hd2 : dim2 [List.replicate 10 (List.replicate 10 [(0 : ℚ)])] = 10 := by
    simp [dim2]
  have h := cutBox_normalizes 2 0 10 10 (createBox [(2 : ℚ), 0, 10, 10] none none)
    [List.replicate 10 (List.replicate 10 [(0 : ℚ)])] (5, 5) rfl
  refine ⟨rfl, ?_⟩
  rw [h.1, hd1, hd2]
  norm_num

/-- Helper: a well-formed non-degenerate image has channel count `c`. -/
lemma shape4_dim3 (image : T4) (h w c : Nat) (h4 : shape4 image 1 h w c)
    (hh : 0 < h) (hw : 0 < w) : dim3 image = c := by
  obtain ⟨hb, hall⟩ := h4
  match image, hb with
  | [p], _ =>
    obtain ⟨hpl, hrows⟩ := hall p (by simp)
    match p, hpl, hh with
    | r :: rs, _, _ =>
      obtain ⟨hrl, hpix⟩ := hrows r (by simp)
      match r, hrl, hw with
      | q :: qs, _, _ =>
        exact hpix q (by simp)

/-- C3: for every box, image of shape `[1, h, w, c]` and requested crop
size, the output of `cutBoxFromImageAndResize` has shape
`[1, cropHeight, cropWidth, c]`, whatever the aspect ratio of the box. -/
theorem cutBox_shape (box : Box) (image : T4) (ch cw h w c : Nat)
    (h4 : shape4 image 1 h w c) (hh : 0 < h) (hw : 0 < w) :
    shape4 (cutBoxFromImageAndResize box image (ch, cw)) 1 ch cw c := by
  have hd3 := shape4_dim3 image h w c h4 hh hw
  unfold cutBoxFromImageAndResize cropAndResize
  refine ⟨by simp, ?_⟩
  intro p hp
  simp only [List.map_cons, List.map_nil, List.mem_singleton] at hp
  subst hp
  refine ⟨by simp, ?_⟩
  intro r hr
  simp only [List.mem_map] at hr
  obtain ⟨y, _, rfl⟩ := hr
  refine ⟨by simp, ?_⟩
  intro q hq
  simp only [List.mem_map] at hq
  obtain ⟨x, _, rfl⟩ := hq
  simp [hd3]

theorem cutBox_shape_witness :
    shape4 [[[[(1 : ℚ)], [2]], [[3], [4]]]] 1 2 2 1 ∧ 0 < 2 ∧
    shape4 (cutBoxFromImageAndResize (createBox [(0 : ℚ), 0, 2, 2] none none)
      [[[[(1 : ℚ)], [2]], [[3], [4]]]] (3, 5)) 1 3 5 1 :=
  ⟨by decide, by decide,
    cutBox_shape (createBox [(0 : ℚ), 0, 2, 2] none none) [[[[(1 : ℚ)], [2]], [[3], [4]]]]
      3 5 2 2 1 (by decide) (by decide) (by decide)⟩

/-- C10: `cutBoxFromImageAndResize` reads only the `startEndTensor` field
of its box argument, so two boxes with equal `startEndTensor` but
arbitrary corner fields and landmarks produce equal outputs on the same
image and crop size. -/
theorem cutBox_reads_only_startEnd (b1 b2 : Box) (image : T4) (cs : Nat × Nat)
    (h : b1.startEndTensor = b2.startEndTensor) :
    cutBoxFromImageAndResize b1 image cs = cutBoxFromImageAndResize b2 image cs := by
  unfold cutBoxFromImageAndResize roundedCoords
  rw [h]

theorem cutBox_reads_only_startEnd_witness :
    Box.mk [0, 0] [1, 1] [0, 0, 1, 1] none ≠ Box.mk [9, 9] [8, 8] [0, 0, 1, 1] (some [(1, 2)]) ∧
    cutBoxFromImageAndResize (Box.mk [0, 0] [1, 1] [0, 0, 1, 1] none) [[[[(1 : ℚ)]]]] (1, 1) =
      cutBoxFromImageAndResize (Box.mk [9, 9] [8, 8] [0, 0, 1, 1] (some [(1, 2)]))
        [[[[(1 : ℚ)]]]] (1, 1) :=
  ⟨by simp, cutBox_reads_only_startEnd _ _ _ _ rfl⟩

/-- C8 (amended): `disposeBox` releases nothing and raises no failure when
the box or its `startPoint` is absent; when all three tensor fields are
present it releases exactly the `startEndTensor`, `startPoint` and
`endPoint` buffers (in that order). When `startPoint` is present but
another tensor field is absent, the unguarded dispose call raises a
failure instead. -/
theorem disposeBox_spec (box : Option TBox) :
    ((box = none ∨ ∃ b, box = some b ∧ b.startPoint = none) →
      disposeBox box = Except.ok []) ∧
    (∀ b sp ep se, box = some b → b.startPoint = some sp → b.endPoint = some ep →
      b.startEndTensor = some se → disposeBox box = Except.ok [se, sp, ep]) := by
  constructor
  · rintro (rfl | ⟨b, rfl, hsp⟩)
    · rfl
    · simp [disposeBox, hsp]
  · rintro b sp ep se rfl hsp hep hse
    simp [disposeBox, disposeRef, hsp, hep, hse]
    rfl

/-- C8 counterexample: a box whose `startPoint` is present but whose
`startEndTensor` is absent falls into the unguarded branch, where the
dispose call on the missing buffer raises a failure instead of releasing
the three buffers. -/
theorem disposeBox_partial_fails :
    disposeBox (some ⟨some 1, some 2, none⟩) = Except.error () := rfl

theorem disposeBox_spec_witness :
    disposeBox none = Except.ok [] ∧
    disposeBox (some ⟨some 5, some 6, some 7⟩) = Except.ok [7, 5, 6] :=
  ⟨(disposeBox_spec none).1 (Or.inl rfl),
   (disposeBox_spec (some ⟨some 5, some 6, some 7⟩)).2
     ⟨some 5, some 6, some 7⟩ 5 6 7 rfl rfl rfl rfl⟩

/-- C9: against the allocation model of the backend, `scaleBoxCoordinates`
and `enlargeBox` leave every buffer of the input box exactly as it was
(neither mutated nor released, including the buffers a `tf.tidy` scope
reclaims in `enlargeBox`), and each returns a box all three of whose
tensor fields are freshly allocated buffers (ids at or above the
allocation watermark at entry, live in the resulting heap). The input
record itself, including its landmarks payload, is never written. -/
theorem transforms_allocate_fresh (box : HBox) (f2 : ℚ × ℚ) (f : ℚ) (h : Heap)
    (hs : box.startPoint < h.next) (he : box.endPoint < h.next)
    (ht : box.startEndTensor < h.next) :
    ((scaleBoxCoordinatesH box f2 h).2.mem box.startPoint = h.mem box.startPoint ∧
     (scaleBoxCoordinatesH box f2 h).2.mem box.endPoint = h.mem box.endPoint ∧
     (scaleBoxCoordinatesH box f2 h).2.mem box.startEndTensor = h.mem box.startEndTensor ∧
     h.next ≤ (scaleBoxCoordinatesH box f2 h).1.startPoint ∧
     h.next ≤ (scaleBoxCoordinatesH box f2 h).1.endPoint ∧
     h.next ≤ (scaleBoxCoordinatesH box f2 h).1.startEndTensor ∧
     ((scaleBoxCoordinatesH box f2 h).2.mem
       (scaleBoxCoordinatesH box f2 h).1.startPoint).isSome = true ∧
     ((scaleBoxCoordinatesH box f2 h).2.mem
       (scaleBoxCoordinatesH box f2 h).1.endPoint).isSome = true ∧
     ((scaleBoxCoordinatesH box f2 h).2.mem
       (scaleBoxCoordinatesH box f2 h).1.startEndTensor).isSome = true) ∧
    ((enlargeBoxH box f h).2.mem box.startPoint = h.mem box.startPoint ∧
     (enlargeBoxH box f h).2.mem box.endPoint = h.mem box.endPoint ∧
     (enlargeBoxH box f h).2.mem box.startEndTensor = h.mem box.startEndTensor ∧
     h.next ≤ (enlargeBoxH box f h).1.startPoint ∧
     h.next ≤ (enlargeBoxH box f h).1.endPoint ∧
     h.next ≤ (enlargeBoxH box f h).1.startEndTensor ∧
     ((enlargeBoxH box f h).2.mem (enlargeBoxH box f h).1.startPoint).isSome = true ∧
     ((enlargeBoxH box f h).2.mem (enlargeBoxH box f h).1.endPoint).isSome = true ∧
     ((enlargeBoxH box f h).2.mem (enlargeBoxH box f h).1.startEndTensor).isSome = true) := by
  refine ⟨⟨?_, ?_, ?_, ?_, ?_, ?_, ?_, ?_, ?_⟩, ⟨?_, ?_, ?_, ?_, ?_, ?_, ?_, ?_, ?_⟩⟩ <;>
    simp only [scaleBoxCoordinatesH, enlargeBoxH, createBoxH, halloc, hread, tidyDispose] <;>
    first
      | omega
      | ((repeat rw [if_neg (by omega)]); done)
      | simp

theorem transforms_allocate_fresh_witness :
    (0 : Nat) < 3 ∧ (1 : Nat) < 3 ∧ (2 : Nat) < 3 ∧
    (scaleBoxCoordinatesH ⟨0, 1, 2, none⟩ (2, 2) ⟨3, fun i => if i < 3 then some [] else none⟩).2.mem 0 =
      Heap.mem ⟨3, fun i => if i < 3 then some [] else none⟩ 0 ∧
    (3 : Nat) ≤ (scaleBoxCoordinatesH ⟨0, 1, 2, none⟩ (2, 2)
      ⟨3, fun i => if i < 3 then some [] else none⟩).1.startPoint ∧
    (3 : Nat) ≤ (enlargeBoxH ⟨0, 1, 2, none⟩ 2
      ⟨3, fun i => if i < 3 then some [] else none⟩).1.startPoint := by
  have h := transforms_allocate_fresh ⟨0, 1, 2, none⟩ (2, 2) 2
    ⟨3, fun i => if i < 3 then some [] else none⟩ (by decide) (by decide) (by decide)
  exact ⟨by omega, by omega, by omega, h.1.1, h.1.2.2.2.1, h.2.2.2.2.1⟩

end FacemeshBox
